import Mathlib

/-!
Verification of the synchronization, diffing and derived-metadata engine of
`scripts/update.py` and of the corpus validator `scripts/validate.py`.

RDF data is embedded shallowly: a graph is a list of triples (the iteration
order of an `rdflib.Graph`) over nodes that are IRIs, blank nodes (numbered)
or literals (lexical value, optional language tag, optional datatype IRI);
graph comparisons in the source (`isomorphic`, `len(g) == 0`) are
set-comparisons and are embedded through `List.toFinset`.  Remote-store
interaction (`sparql_utils.py`, which only exposes query/update/construct/
graph-store operations against the HTTP endpoint) is modelled as operations
on a store of named graphs, following the standard SPARQL semantics of the
query strings that appear in `update.py`.  Python dicts are embedded as
association lists and Python exceptions as `Except`/dedicated result types.
-/

namespace Prez

/-- An RDF literal: lexical value, optional language tag, optional datatype IRI
(`rdflib.Literal`). -/
structure Literal where
  value : String
  lang : Option String
  datatype : Option String
deriving DecidableEq, Repr

/-- An RDF term (`rdflib` `URIRef` / `BNode` / `Literal`); blank nodes are
numbered, reflecting their purely structural identity. -/
inductive Node where
  | uri (u : String)
  | bnode (n : Nat)
  | lit (l : Literal)
deriving DecidableEq, Repr

/-- A subject/predicate/object triple. -/
structure Triple where
  subj : Node
  pred : Node
  obj : Node
deriving DecidableEq, Repr

/-- A graph: its triples in iteration order (set semantics at comparison
points, via `toFinset`). -/
abbrev RGraph := List Triple

/-- `rdf:type`. -/
def rdfType : Node := .uri "http://www.w3.org/1999/02/22-rdf-syntax-ns#type"

/-- `dcat:Dataset`. -/
def dcatDataset : Node := .uri "http://www.w3.org/ns/dcat#Dataset"

/-- `geo:FeatureCollection` (GEO namespace of `update.py`). -/
def geoFeatureCollection : Node := .uri "http://www.opengis.net/ont/geosparql#FeatureCollection"

/-- `geo:Feature`. -/
def geoFeature : Node := .uri "http://www.opengis.net/ont/geosparql#Feature"

/-- `dcterms:identifier`. -/
def dctIdentifier : Node := .uri "http://purl.org/dc/terms/identifier"

/-- `dcterms:isPartOf`. -/
def dctIsPartOf : Node := .uri "http://purl.org/dc/terms/isPartOf"

/-- `rdfs:member`. -/
def rdfsMember : Node := .uri "http://www.w3.org/2000/01/rdf-schema#member"

/-- `rdfs:seeAlso`. -/
def rdfsSeeAlso : Node := .uri "http://www.w3.org/2000/01/rdf-schema#seeAlso"

/-- `xsd:string`, the datatype stripped by modification detection. -/
def xsdString : String := "http://www.w3.org/2001/XMLSchema#string"

/-! ## Blank-node relabeling and graph isomorphism

`update.py` compares graphs with `rdflib.compare.to_isomorphic` /
`isomorphic`, i.e. equality of canonical forms, which holds exactly when some
relabeling of blank nodes (injective on the blank nodes that occur) maps one
triple set onto the other. -/

/-- The blank-node number of a term, if any. -/
def Node.bnodeSet : Node → Finset Nat
  | .bnode n => {n}
  | _ => ∅

/-- The blank nodes occurring in a triple. -/
def Triple.bnodes (t : Triple) : Finset Nat :=
  t.subj.bnodeSet ∪ t.pred.bnodeSet ∪ t.obj.bnodeSet

/-- The blank nodes occurring in a graph. -/
def graphBnodes (g : RGraph) : Finset Nat :=
  g.foldr (fun t acc => t.bnodes ∪ acc) ∅

/-- Apply a blank-node relabeling to a term. -/
def renameNode (f : Nat → Nat) : Node → Node
  | .bnode n => .bnode (f n)
  | n => n

/-- Apply a blank-node relabeling to a triple. -/
def renameTriple (f : Nat → Nat) (t : Triple) : Triple :=
  ⟨renameNode f t.subj, renameNode f t.pred, renameNode f t.obj⟩

/-- Apply a blank-node relabeling to a graph. -/
def renameGraph (f : Nat → Nat) (g : RGraph) : RGraph := g.map (renameTriple f)

/-- `rdflib.compare.isomorphic`: some relabeling of blank nodes, injective on
the blank nodes of the first graph, maps the first triple set onto the
second. -/
def iso (g₁ g₂ : RGraph) : Prop :=
  ∃ f : Nat → Nat, Set.InjOn f ↑(graphBnodes g₁)
    ∧ (renameGraph f g₁).toFinset = g₂.toFinset

theorem mem_graphBnodes {g : RGraph} {n : Nat} :
    n ∈ graphBnodes g ↔ ∃ t ∈ g, n ∈ t.bnodes := by
  induction g with
  | nil => simp [graphBnodes]
  | cons t g ih =>
    simp only [graphBnodes, List.foldr_cons, Finset.mem_union, List.mem_cons]
    rw [show (List.foldr (fun t acc => t.bnodes ∪ acc) ∅ g) = graphBnodes g from rfl, ih]
    constructor
    · rintro (h | ⟨u, hu, hn⟩)
      · exact ⟨t, Or.inl rfl, h⟩
      · exact ⟨u, Or.inr hu, hn⟩
    · rintro ⟨u, rfl | hu, hn⟩
      · exact Or.inl hn
      · exact Or.inr ⟨u, hu, hn⟩

theorem mem_bnodeSet_iff {x : Node} {n : Nat} : n ∈ x.bnodeSet ↔ x = .bnode n := by
  cases x <;> simp [Node.bnodeSet, eq_comm]

theorem renameNode_congr {f f' : Nat → Nat} {x : Node}
    (h : ∀ n ∈ x.bnodeSet, f n = f' n) : renameNode f x = renameNode f' x := by
  cases x <;> simp_all [renameNode, Node.bnodeSet]

theorem renameTriple_congr {f f' : Nat → Nat} {t : Triple}
    (h : ∀ n ∈ t.bnodes, f n = f' n) : renameTriple f t = renameTriple f' t := by
  have hs : renameNode f t.subj = renameNode f' t.subj :=
    renameNode_congr fun n hn =>
      h n (Finset.mem_union_left _ (Finset.mem_union_left _ hn))
  have hp : renameNode f t.pred = renameNode f' t.pred :=
    renameNode_congr fun n hn =>
      h n (Finset.mem_union_left _ (Finset.mem_union_right _ hn))
  have ho : renameNode f t.obj = renameNode f' t.obj :=
    renameNode_congr fun n hn => h n (Finset.mem_union_right _ hn)
  simp only [renameTriple, hs, hp, ho]

theorem renameGraph_congr {f f' : Nat → Nat} {g : RGraph}
    (h : ∀ n ∈ graphBnodes g, f n = f' n) : renameGraph f g = renameGraph f' g :=
  List.map_congr_left fun t ht =>
    renameTriple_congr fun n hn => h n (mem_graphBnodes.mpr ⟨t, ht, hn⟩)

theorem bnodes_renameTriple_mem {f : Nat → Nat} {t : Triple} {n : Nat}
    (hn : n ∈ t.bnodes) : f n ∈ (renameTriple f t).bnodes := by
  simp only [Triple.bnodes, Finset.mem_union] at hn ⊢
  rcases hn with (hn | hn) | hn
  · exact Or.inl (Or.inl (by rw [mem_bnodeSet_iff] at hn ⊢; simp [renameTriple, hn, renameNode]))
  · exact Or.inl (Or.inr (by rw [mem_bnodeSet_iff] at hn ⊢; simp [renameTriple, hn, renameNode]))
  · exact Or.inr (by rw [mem_bnodeSet_iff] at hn ⊢; simp [renameTriple, hn, renameNode])

theorem renameGraph_maps_bnodes {f : Nat → Nat} {g₁ g₂ : RGraph}
    (hren : (renameGraph f g₁).toFinset = g₂.toFinset) {n : Nat}
    (hn : n ∈ graphBnodes g₁) : f n ∈ graphBnodes g₂ := by
  obtain ⟨t, ht, htn⟩ := mem_graphBnodes.mp hn
  have h1 : renameTriple f t ∈ g₂ := by
    rw [← List.mem_toFinset, ← hren, List.mem_toFinset]
    exact List.mem_map_of_mem _ ht
  exact mem_graphBnodes.mpr ⟨renameTriple f t, h1, bnodes_renameTriple_mem htn⟩

/-- Extend an assignment on the blank nodes of `g₁` to all of `Nat`
(identity elsewhere), so that it can be applied by `renameGraph`. -/
def extendAssign (g₁ : RGraph) (F : {n // n ∈ graphBnodes g₁} → Nat) : Nat → Nat :=
  fun n => if h : n ∈ graphBnodes g₁ then F ⟨n, h⟩ else n

/-- The bounded form of `iso` used for decidability: only assignments from the
blank nodes of the first graph into those of the second need to be tried. -/
theorem iso_iff_bounded (g₁ g₂ : RGraph) :
    iso g₁ g₂ ↔ ∃ F : {n // n ∈ graphBnodes g₁} → {m // m ∈ graphBnodes g₂},
      Function.Injective F
        ∧ (renameGraph (extendAssign g₁ fun n => (F n).1) g₁).toFinset = g₂.toFinset := by
  constructor
  · rintro ⟨f, hinj, hren⟩
    have hmapped : ∀ n : {n // n ∈ graphBnodes g₁}, f n.1 ∈ graphBnodes g₂ :=
      fun n => renameGraph_maps_bnodes hren n.2
    refine ⟨fun n => ⟨f n.1, hmapped n⟩, ?_, ?_⟩
    · intro a b hab
      exact Subtype.ext (hinj (Finset.mem_coe.mpr a.2) (Finset.mem_coe.mpr b.2)
        (by simpa using congrArg Subtype.val hab))
    · have heq : renameGraph (extendAssign g₁ fun n => f n.1) g₁ = renameGraph f g₁ :=
        renameGraph_congr fun n hn => by simp [extendAssign, hn]
      show (renameGraph (extendAssign g₁ fun n => f n.1) g₁).toFinset = g₂.toFinset
      rw [heq]
      exact hren
  · rintro ⟨F, hinj, hren⟩
    refine ⟨extendAssign g₁ fun n => (F n).1, ?_, hren⟩
    intro a ha b hb hab
    rw [Finset.mem_coe] at ha hb
    simp only [extendAssign, dif_pos ha, dif_pos hb] at hab
    exact congrArg Subtype.val (hinj (Subtype.ext hab))

instance isoDecidable (g₁ g₂ : RGraph) : Decidable (iso g₁ g₂) :=
  decidable_of_iff _ (iso_iff_bounded g₁ g₂).symm

/-! ## Modification detection (`get_modified_datasets`)

The source canonicalizes both graphs with `to_isomorphic`, serializes them,
applies on the local serialization the two string replacements
`.replace("@en", "")` and `.replace("^^xsd:string", "")`, re-parses, and
finally tests `isomorphic(remote, local)`.  The serialize/replace/re-parse
round trip is embedded at the triple level: it removes an `en` language tag
and an explicit `xsd:string` datatype annotation from each literal of the
local graph (occurrences of these character sequences inside lexical values,
a serialization artifact, are outside the model). -/

/-- The effect of `.replace("@en", "").replace("^^xsd:string", "")` on one
literal of the local graph's canonical serialization. -/
def stripLocalTags (l : Literal) : Literal :=
  ⟨l.value,
    if l.lang = some "en" then none else l.lang,
    if l.datatype = some xsdString then none else l.datatype⟩

/-- `stripLocalTags` lifted to terms. -/
def stripNode : Node → Node
  | .lit l => .lit (stripLocalTags l)
  | n => n

/-- `stripLocalTags` lifted to triples. -/
def stripTriple (t : Triple) : Triple :=
  ⟨stripNode t.subj, stripNode t.pred, stripNode t.obj⟩

/-- The normalized local graph that `get_modified_datasets` re-parses before
the final `isomorphic` test. -/
def localNormalize (g : RGraph) : RGraph := g.map stripTriple

/-- `get_modified_datasets` of `update.py`: `local_datasets` is the
URI-to-content mapping of the local corpus (`{uri: file, ...}` with each file
parsed), `remote` gives the triples of the `CONSTRUCT`-fetched remote content
graph of a URI.  An empty remote graph is skipped (`continue`); otherwise the
URI is reported as modified iff `isomorphic(remote, local)` fails after
normalization of the local side. -/
def get_modified_datasets (local_datasets : List (String × RGraph))
    (remote : String → RGraph) : List String :=
  local_datasets.filterMap fun p =>
    if (remote p.1).toFinset = ∅ then none
    else if iso (remote p.1) (localNormalize p.2) then none
    else some p.1

/-! ## URI-set diff (`get_diff`) -/

/-- `get_diff` of `update.py`:
`to_be_added = list(set(local) - set(remote))`,
`to_be_deleted = list(set(remote) - set(local))`.  Python's `set` is embedded
as `Finset` (the `list(...)` enumeration order is unspecified). -/
def get_diff (local_datasets_list remote_datasets : List String) :
    Finset String × Finset String :=
  (local_datasets_list.toFinset \ remote_datasets.toFinset,
   remote_datasets.toFinset \ local_datasets_list.toFinset)

/-! ## Python dicts (`id_dict`, `mapping_dict`)

Embedded as association lists in insertion order: assignment to an existing
key overwrites in place, assignment to a fresh key appends, `pop` removes the
key's entry. -/

/-- Association-list embedding of a Python `dict` with string keys/values. -/
abbrev Dict := List (String × String)

/-- `d.keys()`. -/
def dictKeys (d : Dict) : List String := d.map Prod.fst

/-- `d.values()`. -/
def dictValues (d : Dict) : List String := d.map Prod.snd

/-- `d[k] = v`. -/
def dictInsert (d : Dict) (k v : String) : Dict :=
  if k ∈ dictKeys d then d.map fun p => if p.1 = k then (k, v) else p
  else d ++ [(k, v)]

/-- `d.pop(k)` (the callers establish that `k` is present). -/
def dictPop (d : Dict) (k : String) : Dict := d.filter fun p => p.1 != k

/-- `d[k]` / `d.get(k)` lookup. -/
def dictGet? (d : Dict) (k : String) : Option String :=
  (d.find? fun p => p.1 == k).map Prod.snd

theorem dictInsert_mem_self (d : Dict) (k v : String) : (k, v) ∈ dictInsert d k v := by
  unfold dictInsert
  by_cases h : k ∈ dictKeys d
  · rw [if_pos h]
    obtain ⟨p, hp, hpk⟩ := List.mem_map.mp h
    exact List.mem_map.mpr ⟨p, hp, by simp [hpk]⟩
  · rw [if_neg h]
    simp

theorem dictInsert_mem_of_ne (d : Dict) (k v : String) {p : String × String}
    (hp : p ∈ d) (hne : p.1 ≠ k) : p ∈ dictInsert d k v := by
  unfold dictInsert
  by_cases h : k ∈ dictKeys d
  · rw [if_pos h]
    exact List.mem_map.mpr ⟨p, hp, by simp [hne]⟩
  · rw [if_neg h]
    exact List.mem_append_left _ hp

theorem mem_values_dictInsert (d : Dict) (k v : String) {w : String}
    (hw : w ∈ dictValues (dictInsert d k v)) : w ∈ dictValues d ∨ w = v := by
  unfold dictValues at hw ⊢
  unfold dictInsert at hw
  by_cases h : k ∈ dictKeys d
  · rw [if_pos h] at hw
    obtain ⟨p, hp, hpw⟩ := List.mem_map.mp hw
    obtain ⟨q, hq, hqp⟩ := List.mem_map.mp hp
    by_cases hqk : q.1 = k
    · right; rw [if_pos hqk] at hqp; rw [← hqp] at hpw; simpa using hpw.symm
    · left; rw [if_neg hqk] at hqp; exact List.mem_map.mpr ⟨q, hq, by rw [hqp, hpw]⟩
  · rw [if_neg h] at hw
    rcases List.mem_map.mp hw with ⟨p, hp, hpw⟩
    rcases List.mem_append.mp hp with hp | hp
    · exact Or.inl (List.mem_map.mpr ⟨p, hp, hpw⟩)
    · right; simp only [List.mem_singleton] at hp; rw [hp] at hpw; exact hpw.symm

theorem mem_values_of_mem {d : Dict} {p : String × String} (hp : p ∈ d) :
    p.2 ∈ dictValues d := List.mem_map_of_mem _ hp

/-! ## The remote store and the SPARQL operations of `update.py`

Modelled from the spec: the remote protocol client (`sparql_utils.py`, present
in the repository but not under `src/`) executes query/update/construct/
graph-store operations against the HTTP endpoint (spec §6).  The store is a
list of named graphs; the two update shapes that `update.py` issues in
`drop_graph` are embedded as explicit operations with standard SPARQL
semantics. -/

/-- A named-graph store (the triplestore's state relevant to `update.py`). -/
structure Store where
  graphs : List (String × RGraph)
deriving DecidableEq

/-- The remote update operations issued by `drop_graph`:
`deleteSubject g s` is `WITH <g> DELETE { <s> ?p ?o } WHERE { <s> ?p ?o }`,
`dropGraph g` is `DROP GRAPH <g>`. -/
inductive RemoteOp where
  | deleteSubject (gname : String) (subjUri : String)
  | dropGraph (gname : String)
deriving DecidableEq, Repr

/-- Modelled from the spec: `sparql_update` of the missing `sparql_utils.py`,
restricted to the two update shapes above, with standard SPARQL update
semantics. -/
def applyOp (st : Store) : RemoteOp → Store
  | .deleteSubject gname s =>
      ⟨st.graphs.map fun p =>
        if p.1 = gname then (p.1, p.2.filter fun t => !(t.subj == Node.uri s)) else p⟩
  | .dropGraph gname => ⟨st.graphs.filter fun p => p.1 != gname⟩

/-- A sequence of remote updates. -/
def applyOps (st : Store) (ops : List RemoteOp) : Store := ops.foldl applyOp st

/-- The triples the store holds in the named graph `name`. -/
def storeGraph (st : Store) (name : String) : RGraph :=
  (st.graphs.filter fun p => p.1 == name).flatMap Prod.snd

theorem mem_storeGraph {st : Store} {name : String} {t : Triple} :
    t ∈ storeGraph st name ↔ ∃ p ∈ st.graphs, p.1 = name ∧ t ∈ p.2 := by
  simp only [storeGraph, List.mem_flatMap, List.mem_filter, beq_iff_eq]
  constructor
  · rintro ⟨p, ⟨hp, hname⟩, ht⟩
    exact ⟨p, hp, hname, ht⟩
  · rintro ⟨p, hp, hname, ht⟩
    exact ⟨p, ⟨hp, hname⟩, ht⟩

/-- The SPARQL built-in `STRSTARTS`, embedded at the character-list level. -/
def STRSTARTS (s pre : String) : Bool :=
  decide (s.toList.take pre.toList.length = pre.toList)

/-- `get_remote_datasets` of `update.py`: the names of the non-empty named
graphs, excluding names starting with `"system"` and the name
`"background:"` (`SELECT DISTINCT` is embedded as `dedup`). -/
def get_remote_datasets (st : Store) : List String :=
  ((st.graphs.filter fun p =>
      !p.2.isEmpty && !STRSTARTS p.1 "system" && p.1 != "background:").map
    Prod.fst).dedup

/-- `drop_graph`'s outcome: `ok` carries the remote updates issued, the store
afterwards and the two updated dicts; `mappingKeyError` is the Python
`KeyError` on `mapping_dict[graph_uri]` (raised before any remote update);
`idKeyError` is the `KeyError` on `id_dict.pop(graph_uri)` (raised after the
remote updates and the `mapping_dict` pop). -/
inductive DropResult where
  | ok (ops : List RemoteOp) (st : Store) (mapping id_dict : Dict)
  | mappingKeyError (uri : String)
  | idKeyError (uri : String) (ops : List RemoteOp) (st : Store) (mapping : Dict)
deriving DecidableEq

/-- `drop_graph` of `update.py`: delete the `<graph_uri> ?p ?o` bookkeeping
triples from `<system:>`, `DROP` the mapped system graph, `DROP` the content
graph, then remove the URI's entries from `mapping_dict` and `id_dict`. -/
def drop_graph (graph_uri : String) (st : Store) (mapping id_dict : Dict) : DropResult :=
  match dictGet? mapping graph_uri with
  | none => .mappingKeyError graph_uri
  | some meta =>
    let ops : List RemoteOp :=
      [.deleteSubject "system:" graph_uri, .dropGraph meta, .dropGraph graph_uri]
    let st' := applyOps st ops
    let mapping' := dictPop mapping graph_uri
    if graph_uri ∈ dictKeys id_dict then
      .ok ops st' mapping' (dictPop id_dict graph_uri)
    else .idKeyError graph_uri ops st' mapping'

/-! ## Identifier assignment (`create_id`) -/

/-- `REPLACE(STR(?c), ".*[/|#|:](.*)$", "$1")`: the segment after the last
`/`, `|`, `#` or `:` of the URI; the whole string when no such character
occurs (the regex then does not match and `REPLACE` returns its input). -/
def trailingSegment (uri : String) : String :=
  ((uri.toList.reverse.takeWhile fun c =>
      !(c == '/' || c == '|' || c == '#' || c == ':')).reverse).asString

/-- The string value a SPARQL binding would carry for this term (`?id` is in
practice a literal; a `dcterms:identifier` given as an IRI would bind its
IRI string; a blank node yields no usable value). -/
def bindingString : Node → Option String
  | .uri u => some u
  | .lit l => some l.value
  | .bnode _ => none

/-- The `?given_id` of `create_id`'s first query: the first
`<uri> dcterms:identifier ?id` binding of the content graph, if any. -/
def given_id (content_graph : RGraph) (uri : String) : Option String :=
  ((content_graph.filter fun t =>
      t.subj == Node.uri uri && t.pred == dctIdentifier).filterMap
    fun t => bindingString t.obj).head?

/-- `COALESCE(?given_id, ?uri_id)`: the candidate identifier of a subject. -/
def id_candidate (content_graph : RGraph) (uri : String) : String :=
  (given_id content_graph uri).getD (trailingSegment uri)

/-- `create_id` of `update.py`: take the given or URI-derived candidate; if it
collides with a value of `id_dict`, retry exactly once with `"1"` appended
(`id += 1` concatenates, `id` being a string-valued literal); if that still
collides, raise naming the URI.  On success the identifier triple is added to
the system graph and the URI's `id_dict` entry is set. -/
def create_id (content_graph : RGraph) (system_graph : RGraph) (uri : String)
    (id_dict : Dict) : Except String (String × RGraph × Dict) :=
  let id := id_candidate content_graph uri
  if id ∉ dictValues id_dict then
    .ok (id, system_graph.insert ⟨Node.uri uri, dctIdentifier, Node.lit ⟨id, none, none⟩⟩,
      dictInsert id_dict uri id)
  else
    let id1 := id ++ "1"
    if id1 ∉ dictValues id_dict then
      .ok (id1, system_graph.insert ⟨Node.uri uri, dctIdentifier, Node.lit ⟨id1, none, none⟩⟩,
        dictInsert id_dict uri id1)
    else .error ("Unable to generate unique ID for " ++ uri)

/-! ## Metadata ("system") graph construction (`create_system_graph`) -/

/-- Whether a term is an IRI. -/
def Node.isUriNode : Node → Bool
  | .uri _ => true
  | _ => false

/-- The `?s` rows of `create_system_graph`'s typed-subject query: one row per
`?s a ?o` triple with `?o` a dataset, feature-collection or feature class
(`SELECT` without `DISTINCT`, so a multiply-typed subject yields several
rows; the bindings are interpolated as IRIs by `create_id`, so only IRI
subjects are enumerated). -/
def typedSubjects (g : RGraph) : List String :=
  (g.filter fun t => t.pred == rdfType
      && (t.obj == dcatDataset || t.obj == geoFeatureCollection || t.obj == geoFeature)).filterMap
    fun t => match t.subj with | .uri u => some u | _ => none

/-- The triples the `INSERT`/`WHERE` update of `create_system_graph` adds to
the system graph: an inverse `rdfs:member` triple for every
feature-to-feature-collection `dcterms:isPartOf` triple, and an inverse
`dcterms:isPartOf` triple for every feature-collection-to-feature
`rdfs:member` triple of the content graph. -/
def inferredMembers (g : RGraph) : RGraph :=
  ((g.filter fun t => decide (t.pred = dctIsPartOf
      ∧ (⟨t.subj, rdfType, geoFeature⟩ : Triple) ∈ g
      ∧ (⟨t.obj, rdfType, geoFeatureCollection⟩ : Triple) ∈ g)).map
    fun t => (⟨t.obj, rdfsMember, t.subj⟩ : Triple))
  ++ ((g.filter fun t => decide (t.pred = rdfsMember
      ∧ (⟨t.subj, rdfType, geoFeatureCollection⟩ : Triple) ∈ g
      ∧ (⟨t.obj, rdfType, geoFeature⟩ : Triple) ∈ g)).map
    fun t => (⟨t.obj, dctIsPartOf, t.subj⟩ : Triple))

/-- An `rdflib.Dataset`: a collection of named graphs. -/
abbrev RDataset := List (String × RGraph)

/-- The triples of the named graph `name` of an `rdflib.Dataset`. -/
def datasetGraph (d : RDataset) (name : String) : RGraph := storeGraph ⟨d⟩ name

/-- The system graph name `f"system:{uuid.uuid4()}"` allocated by
`create_system_graph` (the UUID is a parameter of the embedding). -/
def system_graph_name (uuid : String) : String := "system:" ++ uuid

/-- `create_system_graph` of `update.py`: allocate the fresh system graph
name `f"system:{uuid.uuid4()}"`, run `create_id` for every typed-subject row
of the content graph (accumulating identifier triples in the new system
graph and entries in `id_dict`), then insert the inferred bidirectional
membership triples into the system graph.  The content graph is the named
graph `graph_uri` of the dataset (as set up by `add_graph`).  Returns the
system graph name, the dataset now also holding the populated system graph,
and the updated `id_dict`; propagates the uniqueness failure of
`create_id`. -/
def create_system_graph (graph_uri : String) (d : RDataset) (uuid : String)
    (id_dict : Dict) : Except String (String × RDataset × Dict) :=
  let content_graph := datasetGraph d graph_uri
  let sysid := system_graph_name uuid
  ((typedSubjects content_graph).foldlM
      (fun (acc : RGraph × Dict) s =>
        (create_id content_graph acc.1 s acc.2).map fun r => (r.2.1, r.2.2))
      (([] : RGraph), id_dict)).map
    fun acc => (sysid, d ++ [(sysid, acc.1 ++ inferredMembers content_graph)], acc.2)

/-! ## Local corpus scanner (`get_graph_uri_for_dataset`) -/

/-- Whether a triple types its subject as a `dcat:Dataset`. -/
def typesDataset (t : Triple) : Bool := t.pred == rdfType && t.obj == dcatDataset

/-- `get_graph_uri_for_dataset` of `update.py`: parse the document (a triple
list in document order) and return the first subject typed `dcat:Dataset`;
the `for` loop returns its first iteration's subject, and falls through to
an implicit `None` when there is none. -/
def get_graph_uri_for_dataset (doc : List Triple) : Option Node :=
  ((doc.filter typesDataset).map Triple.subj).head?

/-! ## Session startup (`__main__` of `update.py`) -/

/-- The startup and diffing prefix of `update.py`'s `__main__`: after loading
`mapping_dict` and `id_dict` from the store, `assert` that `id_dict` has
distinct values (`"Found duplicate IDs"`), and only then enumerate the remote
datasets and run modification detection and the URI diff. -/
def session_start (id_dict : Dict) (local_datasets : List (String × RGraph))
    (st : Store) (remote : String → RGraph) :
    Except String (List String × (Finset String × Finset String)) :=
  if (dictValues id_dict).Nodup then
    let remote_datasets := get_remote_datasets st
    let modified_datasets := get_modified_datasets local_datasets remote
    .ok (modified_datasets, get_diff (local_datasets.map Prod.fst) remote_datasets)
  else .error "Found duplicate IDs"

/-! ## Corpus validation (`validate.py`) -/

/-- The outcome of validating one document: `parseError` is the
`except Exception` path (syntax errors crash `validate()`); otherwise
`conforms` is `v[0]` and the three flags record which severity markers the
report text `v[2]` contains (`"Severity: sh:Violation"`,
`"Severity: sh:Warning"`, any other severity such as `sh:Info`). -/
structure DocReport where
  name : String
  parseError : Bool
  conforms : Bool
  hasViolation : Bool
  hasWarning : Bool
  hasOther : Bool
deriving DecidableEq, Repr

/-- The `warning_datasets` dict of `validate.py`: documents whose report is
non-conforming, free of violations, and carries a warning marker. -/
def warning_datasets (docs : List DocReport) : List DocReport :=
  docs.filter fun d => !d.parseError && !d.conforms && !d.hasViolation && d.hasWarning

/-- The `invalid_datasets` dict of `validate.py`: documents that crashed the
validator, plus non-conforming documents with a violation marker. -/
def invalid_datasets (docs : List DocReport) : List DocReport :=
  docs.filter fun d => d.parseError || (!d.parseError && !d.conforms && d.hasViolation)

/-- `main` of `validate.py`: every document is classified, then the final
assertions run; the result is `true` iff the process exits successfully
(no `AssertionError`), i.e. iff `warning_datasets` is empty when
`WARNINGS_INVALID` and `invalid_datasets` is empty. -/
def validate_main (docs : List DocReport) (warnings_invalid : Bool) : Bool :=
  !(warnings_invalid && !(warning_datasets docs).isEmpty)
    && (invalid_datasets docs).isEmpty

instance {ε α : Type} [DecidableEq ε] [DecidableEq α] : DecidableEq (Except ε α) := fun a b =>
  match a, b with
  | .error e₁, .error e₂ => if h : e₁ = e₂ then isTrue (by rw [h]) else isFalse (by simp [h])
  | .ok v₁, .ok v₂ => if h : v₁ = v₂ then isTrue (by rw [h]) else isFalse (by simp [h])
  | .error _, .ok _ => isFalse (by simp)
  | .ok _, .error _ => isFalse (by simp)

theorem except_map_eq_ok {α β γ : Type} {e : Except α β} {f : β → γ} {c : γ}
    (h : Except.map f e = .ok c) : ∃ b, e = .ok b ∧ f b = c := by
  cases e with
  | error a => simp [Except.map] at h
  | ok b => exact ⟨b, rfl, by simpa [Except.map] using h⟩

/-! ## Theorems -/

/-- C2: for all finite URI sets, the URI diff returns to-add = local minus
remote and to-delete = remote minus local (membership-wise, and as a pure
function it is deterministic for a fixed input); diffing a URI set against
itself yields empty to-add and empty to-delete. -/
theorem C2_get_diff_set_difference (l r : List String) :
    (∀ u, u ∈ (get_diff l r).1 ↔ u ∈ l ∧ u ∉ r)
    ∧ (∀ u, u ∈ (get_diff l r).2 ↔ u ∈ r ∧ u ∉ l)
    ∧ get_diff l l = (∅, ∅) := by
  refine ⟨fun u => ?_, fun u => ?_, ?_⟩
  · simp [get_diff]
  · simp [get_diff]
  · simp [get_diff, Prod.ext_iff]

/-- A document with two dataset-typed subjects (and, degenerately, the empty
document) for the C4 counterexample. -/
def twoDatasetDoc : List Triple :=
  [⟨.uri "http://ex.org/d1", rdfType, dcatDataset⟩,
   ⟨.uri "http://ex.org/d2", rdfType, dcatDataset⟩]

/-- C4 counterexample: the scanner never raises `AmbiguousDatasetError` — on a
document with zero dataset-typed subjects it returns no URI (Python `None`),
and on a document with two it silently returns the first, instead of failing
as the claim states. -/
theorem C4_counterexample :
    get_graph_uri_for_dataset [] = none
    ∧ get_graph_uri_for_dataset twoDatasetDoc = some (Node.uri "http://ex.org/d1") := by
  exact ⟨rfl, rfl⟩

/-- C4 (amended): for every local document, the corpus scanner returns no URI
(`None`) when the document contains zero dataset-typed subjects, and returns
the first dataset-typed subject's URI when one or more exist; no error is
raised in any of these cases. -/
theorem C4_scanner_returns_first_dataset (doc : List Triple) :
    (get_graph_uri_for_dataset doc = none ↔ ∀ t ∈ doc, typesDataset t = false)
    ∧ (∀ t rest, doc.filter typesDataset = t :: rest →
        get_graph_uri_for_dataset doc = some t.subj) := by
  constructor
  · simp only [get_graph_uri_for_dataset, List.head?_eq_none_iff, List.map_eq_nil_iff,
      List.filter_eq_nil_iff]
    constructor
    · intro h t ht
      exact Bool.not_eq_true _ ▸ h t ht
    · intro h t ht
      simp [h t ht]
  · intro t rest h
    simp [get_graph_uri_for_dataset, h]

/-- C4 witness: on a single-dataset document the scanner returns that
subject. -/
theorem C4_scanner_returns_first_dataset_witness :
    get_graph_uri_for_dataset [⟨Node.uri "http://ex.org/d1", rdfType, dcatDataset⟩]
      = some (Node.uri "http://ex.org/d1") :=
  (C4_scanner_returns_first_dataset _).2
    ⟨Node.uri "http://ex.org/d1", rdfType, dcatDataset⟩ [] (by decide)

/-- C5: if the identifier map loaded at session start maps two distinct
subject URIs to the same identifier value, the session fails with the
duplicate-identifier assertion before any diffing output is produced; if all
identifier values are distinct, it proceeds and returns the modification
detection result together with the URI diff. -/
theorem C5_startup_duplicate_check (id_dict : Dict)
    (local_datasets : List (String × RGraph)) (st : Store) (remote : String → RGraph) :
    ((∃ u₁ u₂ v, u₁ ≠ u₂ ∧ (u₁, v) ∈ id_dict ∧ (u₂, v) ∈ id_dict) →
      session_start id_dict local_datasets st remote = .error "Found duplicate IDs")
    ∧ ((dictValues id_dict).Nodup →
      session_start id_dict local_datasets st remote =
        .ok (get_modified_datasets local_datasets remote,
          get_diff (local_datasets.map Prod.fst) (get_remote_datasets st))) := by
  constructor
  · rintro ⟨u₁, u₂, v, hne, h₁, h₂⟩
    have hnodup : ¬ (dictValues id_dict).Nodup := by
      intro hn
      exact hne (congrArg Prod.fst
        (List.inj_on_of_nodup_map (f := Prod.snd) hn h₁ h₂ rfl))
    unfold session_start
    rw [if_neg hnodup]
  · intro hn
    unfold session_start
    rw [if_pos hn]

/-- C5 witness: a concrete duplicated registry fails, a distinct one
proceeds. -/
theorem C5_startup_duplicate_check_witness :
    session_start [("http://ex.org/a", "x"), ("http://ex.org/b", "x")] [] ⟨[]⟩ (fun _ => [])
      = .error "Found duplicate IDs" :=
  (C5_startup_duplicate_check _ _ _ _).1
    ⟨"http://ex.org/a", "http://ex.org/b", "x", by decide, by decide, by decide⟩

/-- C9: every system graph name allocated during a build carries the reserved
`system` prefix, and remote dataset enumeration never yields a name with that
prefix, nor the bookkeeping graph `system:`, nor the background graph
`background:`. -/
theorem C9_system_graphs_never_enumerated :
    (∀ uuid, STRSTARTS (system_graph_name uuid) "system" = true)
    ∧ (∀ st g, g ∈ get_remote_datasets st →
        STRSTARTS g "system" = false ∧ g ≠ "background:")
    ∧ (∀ st uuid, system_graph_name uuid ∉ get_remote_datasets st)
    ∧ (∀ st, "system:" ∉ get_remote_datasets st ∧ "background:" ∉ get_remote_datasets st) := by
  have h1 : ∀ uuid, STRSTARTS (system_graph_name uuid) "system" = true := by
    intro uuid
    cases uuid with
    | mk data => rfl
  have h2 : ∀ st g, g ∈ get_remote_datasets st →
      STRSTARTS g "system" = false ∧ g ≠ "background:" := by
    intro st g hg
    simp only [get_remote_datasets, List.mem_dedup, List.mem_map] at hg
    obtain ⟨p, hp, rfl⟩ := hg
    have := (List.mem_filter.mp hp).2
    simp only [Bool.and_eq_true, Bool.not_eq_true', bne_iff_ne] at this
    exact ⟨this.1.2, this.2⟩
  refine ⟨h1, h2, ?_, ?_⟩
  · intro st uuid hmem
    have := (h2 st _ hmem).1
    rw [h1 uuid] at this
    exact Bool.true_eq_false.mp this
  · intro st
    constructor
    · intro hmem
      have := (h2 st _ hmem).1
      have h : STRSTARTS "system:" "system" = true := by decide
      rw [h] at this
      exact Bool.true_eq_false.mp this
    · intro hmem
      exact (h2 st _ hmem).2 rfl

/-- C3: when the candidates derived for three URIs all collide on the same
value `c` against an initially `c`-free and `c1`-free registry, the first
assignment registers `c`, the second detects the collision with the
session-registered `c` and retries exactly once with suffix `"1"` (yielding a
distinct identifier), and the third — colliding with both `c` and `c ++ "1"`
— fails with the error naming its URI. -/
theorem C3_identifier_collision_retry (cg sg₁ sg₂ sg₃ : RGraph) (d : Dict)
    (u₁ u₂ u₃ c : String) (hne : u₁ ≠ u₂)
    (h₁ : id_candidate cg u₁ = c) (h₂ : id_candidate cg u₂ = c)
    (h₃ : id_candidate cg u₃ = c)
    (hc : c ∉ dictValues d) (hc1 : c ++ "1" ∉ dictValues d) :
    ∃ g₁ d₁ g₂ d₂,
      create_id cg sg₁ u₁ d = .ok (c, g₁, d₁)
      ∧ create_id cg sg₂ u₂ d₁ = .ok (c ++ "1", g₂, d₂)
      ∧ c ≠ c ++ "1"
      ∧ create_id cg sg₃ u₃ d₂ = .error ("Unable to generate unique ID for " ++ u₃) := by
  have hcc1 : c ≠ c ++ "1" := by
    intro h
    have hlen := congrArg String.length h
    rw [String.length_append] at hlen
    have hone : ("1" : String).length = 1 := rfl
    omega
  refine ⟨sg₁.insert ⟨Node.uri u₁, dctIdentifier, Node.lit ⟨c, none, none⟩⟩,
    dictInsert d u₁ c,
    sg₂.insert ⟨Node.uri u₂, dctIdentifier, Node.lit ⟨c ++ "1", none, none⟩⟩,
    dictInsert (dictInsert d u₁ c) u₂ (c ++ "1"),
    ?_, ?_, hcc1, ?_⟩
  · unfold create_id
    rw [h₁, if_pos hc]
  · have hcmem : c ∈ dictValues (dictInsert d u₁ c) :=
      mem_values_of_mem (dictInsert_mem_self d u₁ c)
    have hc1mem : c ++ "1" ∉ dictValues (dictInsert d u₁ c) := by
      intro h
      rcases mem_values_dictInsert d u₁ c h with h | h
      · exact hc1 h
      · exact hcc1 h.symm
    unfold create_id
    rw [h₂, if_neg (not_not_intro hcmem), if_pos hc1mem]
  · have hu1mem : (u₁, c) ∈ dictInsert (dictInsert d u₁ c) u₂ (c ++ "1") :=
      dictInsert_mem_of_ne _ _ _ (dictInsert_mem_self d u₁ c) hne
    have hcmem : c ∈ dictValues (dictInsert (dictInsert d u₁ c) u₂ (c ++ "1")) :=
      mem_values_of_mem hu1mem
    have hc1mem : c ++ "1" ∈ dictValues (dictInsert (dictInsert d u₁ c) u₂ (c ++ "1")) :=
      mem_values_of_mem (dictInsert_mem_self _ u₂ (c ++ "1"))
    unfold create_id
    rw [h₃, if_neg (not_not_intro hcmem), if_neg (not_not_intro hc1mem)]

/-- C3 witness: three URIs ending in `#x` against an empty registry — `x`,
then `x1`, then failure naming the third URI. -/
theorem C3_identifier_collision_retry_witness :
    ∃ g₁ d₁ g₂ d₂,
      create_id [] [] "http://ex.org/a#x" [] = .ok ("x", g₁, d₁)
      ∧ create_id [] [] "http://ex.org/b#x" d₁ = .ok ("x" ++ "1", g₂, d₂)
      ∧ "x" ≠ "x" ++ "1"
      ∧ create_id [] [] "http://ex.org/c#x" d₂
          = .error ("Unable to generate unique ID for " ++ "http://ex.org/c#x") :=
  C3_identifier_collision_retry [] [] [] [] [] "http://ex.org/a#x" "http://ex.org/b#x"
    "http://ex.org/c#x" "x" (by decide) (by decide) (by decide) (by decide)
    (by decide) (by decide)

theorem not_mem_keys_dictPop (d : Dict) (k : String) : k ∉ dictKeys (dictPop d k) := by
  intro h
  obtain ⟨p, hp, hpk⟩ := List.mem_map.mp h
  have hcond := (List.mem_filter.mp hp).2
  rw [hpk] at hcond
  simp at hcond

theorem mem_dictPop_of_ne {d : Dict} {p : String × String} (hp : p ∈ d) {k : String}
    (hne : p.1 ≠ k) : p ∈ dictPop d k :=
  List.mem_filter.mpr ⟨hp, by simpa using hne⟩

theorem storeGraph_deleteSubject {s : Store} {u name : String} {t : Triple}
    (ht : t ∈ storeGraph (applyOp s (.deleteSubject name u)) name) :
    t.subj ≠ Node.uri u := by
  rw [mem_storeGraph] at ht
  obtain ⟨p, hp, hname, htp⟩ := ht
  simp only [applyOp, List.mem_map] at hp
  obtain ⟨q, hq, hqp⟩ := hp
  by_cases hqn : q.1 = name
  · rw [if_pos hqn] at hqp
    rw [← hqp] at htp
    have hcond := (List.mem_filter.mp htp).2
    simpa using hcond
  · rw [if_neg hqn] at hqp
    rw [← hqp] at hname
    exact absurd hname hqn

theorem storeGraph_dropGraph_mono {s : Store} {n name : String} {t : Triple}
    (ht : t ∈ storeGraph (applyOp s (.dropGraph n)) name) : t ∈ storeGraph s name := by
  rw [mem_storeGraph] at ht ⊢
  obtain ⟨p, hp, hname, htp⟩ := ht
  simp only [applyOp] at hp
  exact ⟨p, (List.mem_filter.mp hp).1, hname, htp⟩

theorem not_mem_remote_dropGraph (s : Store) (n : String) :
    n ∉ get_remote_datasets (applyOp s (.dropGraph n)) := by
  intro h
  simp only [get_remote_datasets, List.mem_dedup, List.mem_map] at h
  obtain ⟨p, hp, hpn⟩ := h
  have h1 := (List.mem_filter.mp hp).1
  simp only [applyOp] at h1
  have h2 := (List.mem_filter.mp h1).2
  rw [hpn] at h2
  simp at h2

/-- C6: when the URI has a metadata mapping and a registered identifier,
`drop_graph` succeeds, removes the bookkeeping reference triples for the URI
from the `system:` graph, issues the `DROP` of the metadata graph strictly
before the `DROP` of the content graph, removes the URI's entries from both
the mapping registry and the identifier registry, and the URI is no longer
enumerated among the remote datasets. -/
theorem C6_drop_graph_removes_dataset (graph_uri meta : String) (st : Store)
    (mapping ids : Dict)
    (hm : dictGet? mapping graph_uri = some meta) (hk : graph_uri ∈ dictKeys ids) :
    ∃ ops st' mapping' ids',
      drop_graph graph_uri st mapping ids = .ok ops st' mapping' ids'
      ∧ (∃ i j : Nat, i < j ∧ ops[i]? = some (RemoteOp.dropGraph meta)
          ∧ ops[j]? = some (RemoteOp.dropGraph graph_uri))
      ∧ (∀ t ∈ storeGraph st' "system:", t.subj ≠ Node.uri graph_uri)
      ∧ graph_uri ∉ dictKeys mapping'
      ∧ graph_uri ∉ dictKeys ids'
      ∧ graph_uri ∉ get_remote_datasets st' := by
  refine ⟨[.deleteSubject "system:" graph_uri, .dropGraph meta, .dropGraph graph_uri],
    applyOps st [.deleteSubject "system:" graph_uri, .dropGraph meta, .dropGraph graph_uri],
    dictPop mapping graph_uri, dictPop ids graph_uri, ?_, ?_, ?_, ?_, ?_, ?_⟩
  · unfold drop_graph
    rw [hm]
    exact if_pos hk
  · exact ⟨1, 2, Nat.one_lt_two, rfl, rfl⟩
  · intro t ht
    simp only [applyOps, List.foldl_cons, List.foldl_nil] at ht
    exact storeGraph_deleteSubject (storeGraph_dropGraph_mono (storeGraph_dropGraph_mono ht))
  · exact not_mem_keys_dictPop mapping graph_uri
  · exact not_mem_keys_dictPop ids graph_uri
  · simp only [applyOps, List.foldl_cons, List.foldl_nil]
    exact not_mem_remote_dropGraph _ graph_uri

/-- C6 witness: dropping a concretely stored dataset with its metadata graph
and registry entries. -/
theorem C6_drop_graph_removes_dataset_witness :
    ∃ ops st' mapping' ids',
      drop_graph "http://ex.org/d"
          ⟨[("http://ex.org/d", [⟨Node.uri "http://ex.org/d", rdfType, dcatDataset⟩]),
            ("system:", [⟨Node.uri "http://ex.org/d", rdfsSeeAlso, Node.uri "system:m1"⟩]),
            ("system:m1", [⟨Node.uri "http://ex.org/d", dctIdentifier,
              Node.lit ⟨"d", none, none⟩⟩])]⟩
          [("http://ex.org/d", "system:m1")] [("http://ex.org/d", "d")]
        = .ok ops st' mapping' ids'
      ∧ (∃ i j : Nat, i < j ∧ ops[i]? = some (RemoteOp.dropGraph "system:m1")
          ∧ ops[j]? = some (RemoteOp.dropGraph "http://ex.org/d"))
      ∧ (∀ t ∈ storeGraph st' "system:", t.subj ≠ Node.uri "http://ex.org/d")
      ∧ "http://ex.org/d" ∉ dictKeys mapping'
      ∧ "http://ex.org/d" ∉ dictKeys ids'
      ∧ "http://ex.org/d" ∉ get_remote_datasets st' :=
  C6_drop_graph_removes_dataset "http://ex.org/d" "system:m1" _ _ _ (by decide) (by decide)

/-- C10: deleting a dataset removes only the dataset's own entry from the
identifier registry: the entry of a structural child (a distinct subject that
was assigned an identifier when the dataset was added) survives the deletion,
so a subsequent re-add runs the child's uniqueness check against its own
still-registered previous identifier — the candidate collides and the child
is assigned the suffixed identifier instead. -/
theorem C10_child_identifiers_survive_deletion (graph_uri meta child cid : String)
    (st : Store) (mapping ids : Dict)
    (hm : dictGet? mapping graph_uri = some meta) (hk : graph_uri ∈ dictKeys ids)
    (hchild : (child, cid) ∈ ids) (hne : child ≠ graph_uri) :
    ∃ ops st' mapping' ids',
      drop_graph graph_uri st mapping ids = .ok ops st' mapping' ids'
      ∧ (child, cid) ∈ ids'
      ∧ cid ∈ dictValues ids'
      ∧ (∀ cg sg, id_candidate cg child = cid → cid ++ "1" ∉ dictValues ids' →
          create_id cg sg child ids' =
            .ok (cid ++ "1",
              sg.insert ⟨Node.uri child, dctIdentifier, Node.lit ⟨cid ++ "1", none, none⟩⟩,
              dictInsert ids' child (cid ++ "1"))) := by
  refine ⟨[.deleteSubject "system:" graph_uri, .dropGraph meta, .dropGraph graph_uri],
    applyOps st [.deleteSubject "system:" graph_uri, .dropGraph meta, .dropGraph graph_uri],
    dictPop mapping graph_uri, dictPop ids graph_uri, ?_, ?_, ?_, ?_⟩
  · unfold drop_graph
    rw [hm]
    exact if_pos hk
  · exact mem_dictPop_of_ne hchild hne
  · exact mem_values_of_mem (p := (child, cid)) (mem_dictPop_of_ne hchild hne)
  · intro cg sg hcand hfree
    have hmem : cid ∈ dictValues (dictPop ids graph_uri) :=
      mem_values_of_mem (p := (child, cid)) (mem_dictPop_of_ne hchild hne)
    unfold create_id
    rw [hcand, if_neg (not_not_intro hmem), if_pos hfree]

/-- C10 witness: after deleting the dataset, its child's registry entry is
still present and forces the suffixed identifier on re-add. -/
theorem C10_child_identifiers_survive_deletion_witness :
    ∃ ops st' mapping' ids',
      drop_graph "http://ex.org/d"
          ⟨[("http://ex.org/d", [⟨Node.uri "http://ex.org/d", rdfType, dcatDataset⟩])]⟩
          [("http://ex.org/d", "system:m1")]
          [("http://ex.org/d", "d"), ("http://ex.org/d/c", "c")]
        = .ok ops st' mapping' ids'
      ∧ ("http://ex.org/d/c", "c") ∈ ids'
      ∧ "c" ∈ dictValues ids'
      ∧ (∀ cg sg, id_candidate cg "http://ex.org/d/c" = "c" → "c" ++ "1" ∉ dictValues ids' →
          create_id cg sg "http://ex.org/d/c" ids' =
            .ok ("c" ++ "1",
              sg.insert ⟨Node.uri "http://ex.org/d/c", dctIdentifier,
                Node.lit ⟨"c" ++ "1", none, none⟩⟩,
              dictInsert ids' "http://ex.org/d/c" ("c" ++ "1"))) :=
  C10_child_identifiers_survive_deletion "http://ex.org/d" "system:m1" "http://ex.org/d/c" "c"
    _ _ _ (by decide) (by decide) (by decide) (by decide)

/-- C9 witness: a concrete store holding a content graph, the bookkeeping
graph, the background graph and a system graph enumerates only the content
graph, which has no system prefix. -/
theorem C9_system_graphs_never_enumerated_witness :
    STRSTARTS "http://ex.org/d" "system" = false ∧ "http://ex.org/d" ≠ "background:" :=
  C9_system_graphs_never_enumerated.2.1
    ⟨[("http://ex.org/d", [⟨Node.uri "http://ex.org/d", rdfType, dcatDataset⟩]),
      ("system:", [⟨Node.uri "http://ex.org/d", rdfsSeeAlso, Node.uri "system:m"⟩]),
      ("background:", [⟨Node.uri "http://ex.org/b", rdfType, dcatDataset⟩])]⟩
    "http://ex.org/d" (by decide)

/-- C7: when the build succeeds and the fresh system graph name does not
clash with the content graph name, then for every feature `f` linked by
`dcterms:isPartOf` to a feature collection `fc` in the content graph (with
both typing triples present), the inverse `rdfs:member` triple is in the
produced system graph; symmetrically for every explicit `rdfs:member` triple
the inverse `dcterms:isPartOf` triple is inserted; and the content graph of
the dataset is left unchanged by the build. -/
theorem C7_bidirectional_membership (graph_uri uuid : String) (d : RDataset)
    (id_dict : Dict) (sysid : String) (d' : RDataset) (idd : Dict)
    (hok : create_system_graph graph_uri d uuid id_dict = .ok (sysid, d', idd))
    (hfresh : system_graph_name uuid ≠ graph_uri) :
    (∀ f fc : Node,
        (⟨f, rdfType, geoFeature⟩ : Triple) ∈ datasetGraph d graph_uri →
        (⟨f, dctIsPartOf, fc⟩ : Triple) ∈ datasetGraph d graph_uri →
        (⟨fc, rdfType, geoFeatureCollection⟩ : Triple) ∈ datasetGraph d graph_uri →
        (⟨fc, rdfsMember, f⟩ : Triple) ∈ datasetGraph d' sysid)
    ∧ (∀ f fc : Node,
        (⟨fc, rdfType, geoFeatureCollection⟩ : Triple) ∈ datasetGraph d graph_uri →
        (⟨fc, rdfsMember, f⟩ : Triple) ∈ datasetGraph d graph_uri →
        (⟨f, rdfType, geoFeature⟩ : Triple) ∈ datasetGraph d graph_uri →
        (⟨f, dctIsPartOf, fc⟩ : Triple) ∈ datasetGraph d' sysid)
    ∧ datasetGraph d' graph_uri = datasetGraph d graph_uri := by
  simp only [create_system_graph] at hok
  obtain ⟨acc, hacc, hc⟩ := except_map_eq_ok hok
  rw [Prod.ext_iff] at hc
  obtain ⟨hsys, hc2⟩ := hc
  rw [Prod.ext_iff] at hc2
  obtain ⟨hd, hidd⟩ := hc2
  simp only at hsys hd hidd
  subst hsys
  subst hd
  have hmemsys : ∀ t : Triple, t ∈ inferredMembers (datasetGraph d graph_uri) →
      t ∈ datasetGraph
        (d ++ [(system_graph_name uuid,
          acc.1 ++ inferredMembers (datasetGraph d graph_uri))])
        (system_graph_name uuid) := by
    intro t ht
    rw [datasetGraph, mem_storeGraph]
    exact ⟨(system_graph_name uuid, acc.1 ++ inferredMembers (datasetGraph d graph_uri)),
      List.mem_append_right _ (List.mem_singleton.mpr rfl), rfl,
      List.mem_append_right _ ht⟩
  refine ⟨?_, ?_, ?_⟩
  · intro f fc hf hpart hfc
    apply hmemsys
    simp only [inferredMembers, List.mem_append, List.mem_map, List.mem_filter,
      decide_eq_true_eq]
    exact Or.inl ⟨⟨f, dctIsPartOf, fc⟩, ⟨hpart, rfl, hf, hfc⟩, rfl⟩
  · intro f fc hfc hmem hf
    apply hmemsys
    simp only [inferredMembers, List.mem_append, List.mem_map, List.mem_filter,
      decide_eq_true_eq]
    exact Or.inr ⟨⟨fc, rdfsMember, f⟩, ⟨hmem, rfl, hfc, hf⟩, rfl⟩
  · have hbe : (system_graph_name uuid == graph_uri) = false := beq_eq_false_iff_ne.mpr hfresh
    simp [datasetGraph, storeGraph, List.filter_append, hbe]

/-- The C7 witness content graph: one feature, one feature collection, one
`isPartOf` link. -/
def c7content : RGraph :=
  [⟨.uri "http://ex.org/ds#f", rdfType, geoFeature⟩,
   ⟨.uri "http://ex.org/ds#fc", rdfType, geoFeatureCollection⟩,
   ⟨.uri "http://ex.org/ds#f", dctIsPartOf, .uri "http://ex.org/ds#fc"⟩]

/-- The C7 witness dataset holding only the content graph. -/
def c7dataset : RDataset := [("http://ex.org/ds", c7content)]

/-- The system graph `create_system_graph` produces on `c7dataset`. -/
def c7system : RGraph :=
  [⟨.uri "http://ex.org/ds#fc", dctIdentifier, .lit ⟨"fc", none, none⟩⟩,
   ⟨.uri "http://ex.org/ds#f", dctIdentifier, .lit ⟨"f", none, none⟩⟩,
   ⟨.uri "http://ex.org/ds#fc", rdfsMember, .uri "http://ex.org/ds#f"⟩]

/-- C7 witness: on the concrete dataset the build inserts the inverse
`rdfs:member` triple and leaves the content graph unchanged. -/
theorem C7_bidirectional_membership_witness :
    (⟨Node.uri "http://ex.org/ds#fc", rdfsMember, Node.uri "http://ex.org/ds#f"⟩ : Triple)
      ∈ datasetGraph (c7dataset ++ [("system:u1", c7system)]) "system:u1"
    ∧ datasetGraph (c7dataset ++ [("system:u1", c7system)]) "http://ex.org/ds"
        = datasetGraph c7dataset "http://ex.org/ds" :=
  have h := C7_bidirectional_membership "http://ex.org/ds" "u1" c7dataset []
    "system:u1" (c7dataset ++ [("system:u1", c7system)])
    [("http://ex.org/ds#f", "f"), ("http://ex.org/ds#fc", "fc")]
    (by decide) (by decide)
  ⟨h.1 (Node.uri "http://ex.org/ds#f") (Node.uri "http://ex.org/ds#fc")
    (by decide) (by decide) (by decide), h.2.2⟩

/-- C8: validation classifies every document of the corpus (collecting
failures instead of stopping at the first), and the run fails (non-zero exit)
iff some document has a violation-severity result or a parse error, or — when
warnings are escalated — some document has a warning-severity result; under
the SHACL contract that a report conforms exactly when it has no results,
warning-only corpora do not fail without escalation. -/
theorem C8_validation_aggregates_failures (docs : List DocReport) (warnings_invalid : Bool)
    (hconf : ∀ d ∈ docs, d.parseError = false →
      d.conforms = !(d.hasViolation || d.hasWarning || d.hasOther)) :
    (validate_main docs warnings_invalid = false ↔
      (∃ d ∈ docs, d.parseError = true ∨ d.hasViolation = true)
      ∨ (warnings_invalid = true ∧ ∃ d ∈ docs, d.parseError = false ∧ d.hasWarning = true))
    ∧ (∀ d ∈ docs, (d.parseError = true ∨ (d.conforms = false ∧ d.hasViolation = true)) →
        d ∈ invalid_datasets docs) := by
  have hinv : ∀ d, d ∈ invalid_datasets docs ↔
      d ∈ docs ∧ (d.parseError = true
        ∨ (d.parseError = false ∧ d.conforms = false ∧ d.hasViolation = true)) := by
    intro d
    simp [invalid_datasets, List.mem_filter, Bool.and_eq_true, Bool.not_eq_true', and_assoc]
  have hwarn : ∀ d, d ∈ warning_datasets docs ↔
      d ∈ docs ∧ d.parseError = false ∧ d.conforms = false ∧ d.hasViolation = false
        ∧ d.hasWarning = true := by
    intro d
    simp [warning_datasets, List.mem_filter, Bool.and_eq_true, Bool.not_eq_true', and_assoc]
  have hmain : validate_main docs warnings_invalid = false ↔
      (warnings_invalid = true ∧ ∃ d, d ∈ warning_datasets docs)
      ∨ (∃ d, d ∈ invalid_datasets docs) := by
    unfold validate_main
    cases warnings_invalid <;>
      simp [List.isEmpty_iff, List.eq_nil_iff_forall_not_mem, or_iff_not_imp_left, not_exists]
  constructor
  · rw [hmain]
    constructor
    · rintro (⟨hwi, d, hd⟩ | ⟨d, hd⟩)
      · rw [hwarn] at hd
        exact Or.inr ⟨hwi, d, hd.1, hd.2.1, hd.2.2.2.2⟩
      · rw [hinv] at hd
        rcases hd.2 with hpe | ⟨_, _, hviol⟩
        · exact Or.inl ⟨d, hd.1, Or.inl hpe⟩
        · exact Or.inl ⟨d, hd.1, Or.inr hviol⟩
    · rintro (⟨d, hd, hpe | hviol⟩ | ⟨hwi, d, hd, hpe, hw⟩)
      · exact Or.inr ⟨d, (hinv d).mpr ⟨hd, Or.inl hpe⟩⟩
      · by_cases hpe : d.parseError = true
        · exact Or.inr ⟨d, (hinv d).mpr ⟨hd, Or.inl hpe⟩⟩
        · have hpe' : d.parseError = false := by simpa using hpe
          have hc := hconf d hd hpe'
          rw [hviol] at hc
          simp at hc
          exact Or.inr ⟨d, (hinv d).mpr ⟨hd, Or.inr ⟨hpe', hc, hviol⟩⟩⟩
      · by_cases hviol : d.hasViolation = true
        · have hc := hconf d hd hpe
          rw [hviol] at hc
          simp at hc
          exact Or.inr ⟨d, (hinv d).mpr ⟨hd, Or.inr ⟨hpe, hc, hviol⟩⟩⟩
        · have hviol' : d.hasViolation = false := by simpa using hviol
          have hc := hconf d hd hpe
          rw [hviol', hw] at hc
          simp at hc
          exact Or.inl ⟨hwi, d, (hwarn d).mpr ⟨hd, hpe, hc, hviol', hw⟩⟩
  · intro d hd hpred
    rw [hinv d]
    refine ⟨hd, ?_⟩
    rcases hpred with hpe | ⟨hc, hviol⟩
    · exact Or.inl hpe
    · by_cases hpe : d.parseError = true
      · exact Or.inl hpe
      · exact Or.inr ⟨by simpa using hpe, hc, hviol⟩

/-- C8 witness: a single violation document makes the run fail even without
warning escalation. -/
theorem C8_validation_aggregates_failures_witness :
    validate_main [⟨"bad.ttl", false, false, true, false, false⟩] false = false :=
  (C8_validation_aggregates_failures [⟨"bad.ttl", false, false, true, false, false⟩] false
      (by decide)).1.mpr
    (Or.inl ⟨⟨"bad.ttl", false, false, true, false, false⟩, by decide, Or.inr rfl⟩)

/-- Modelled from the spec (§4.3 step 2, which generalizes what the code's
string replacements do): the literal normalization the spec prescribes before
comparison — a language tag that the remote form lacks is ignored
("language-tag stripping is NOT a semantic change"), and an explicit
`xsd:string` datatype annotation is treated as equivalent to no
annotation. -/
def specNormalizeLit (l : Literal) : Literal :=
  ⟨l.value, none, if l.datatype = some xsdString then none else l.datatype⟩

/-- `specNormalizeLit` lifted to terms. -/
def specNormalizeNode : Node → Node
  | .lit l => .lit (specNormalizeLit l)
  | n => n

/-- `specNormalizeLit` lifted to triples. -/
def specNormalizeTriple (t : Triple) : Triple :=
  ⟨specNormalizeNode t.subj, specNormalizeNode t.pred, specNormalizeNode t.obj⟩

/-- Modelled from the spec: the spec-side normalized form whose canonical
triple sets §4.3 step 3 compares. -/
def specNormalize (g : RGraph) : RGraph := g.map specNormalizeTriple

/-- The C1 counterexample local graph: one literal tagged `@fr`. -/
def frLocalGraph : RGraph :=
  [⟨.uri "http://ex.org/d", .uri "http://ex.org/p", .lit ⟨"chat", some "fr", none⟩⟩]

/-- The C1 counterexample remote graph: the same literal, tag omitted by the
remote store. -/
def frRemoteGraph : RGraph :=
  [⟨.uri "http://ex.org/d", .uri "http://ex.org/p", .lit ⟨"chat", none, none⟩⟩]

/-- The C1 counterexample remote fetch. -/
def frRemote : String → RGraph :=
  fun u => if u = "http://ex.org/d" then frRemoteGraph else []

/-- C1 counterexample: the local literal carries a French language tag that
the remote form lacks; after the normalization the claim describes the two
graphs are identical — hence structurally isomorphic — and the remote graph
is non-empty, yet `get_modified_datasets` reports the URI as modified: the
code's replacement strips only the `@en` tag, so the claimed "unchanged
whenever isomorphic after literal normalization" fails at this input. -/
theorem C1_counterexample :
    specNormalize frLocalGraph = specNormalize frRemoteGraph
    ∧ iso (specNormalize frRemoteGraph) (specNormalize frLocalGraph)
    ∧ frRemoteGraph.toFinset ≠ ∅
    ∧ get_modified_datasets [("http://ex.org/d", frLocalGraph)] frRemote
        = ["http://ex.org/d"] :=
  ⟨by decide, by decide, by decide, by decide⟩

/-- C1 (amended): for every locally known URI with its parsed graph (the
local keys are distinct, coming from a Python dict), the URI is reported
modified iff the fetched remote content graph is non-empty and not
isomorphic — up to blank-node relabeling — to the local graph normalized by
the code's rules, which strip exactly an `"en"` language tag and an explicit
`xsd:string` annotation, on the local side only; in particular a URI whose
non-empty remote graph is isomorphic to the so-normalized local graph is
reported unchanged. -/
theorem C1_modified_iff_not_isomorphic (local_datasets : List (String × RGraph))
    (remote : String → RGraph) (uri : String) (g : RGraph)
    (hmem : (uri, g) ∈ local_datasets)
    (hkeys : (local_datasets.map Prod.fst).Nodup) :
    uri ∈ get_modified_datasets local_datasets remote ↔
      (remote uri).toFinset ≠ ∅ ∧ ¬ iso (remote uri) (localNormalize g) := by
  unfold get_modified_datasets
  rw [List.mem_filterMap]
  constructor
  · rintro ⟨p, hp, hfp⟩
    have hp1 : p.1 = uri := by
      by_cases h1 : (remote p.1).toFinset = ∅
      · rw [if_pos h1] at hfp; simp at hfp
      · rw [if_neg h1] at hfp
        by_cases h2 : iso (remote p.1) (localNormalize p.2)
        · rw [if_pos h2] at hfp; simp at hfp
        · rw [if_neg h2] at hfp; exact Option.some.inj hfp
    have hpeq : p = (uri, g) := List.inj_on_of_nodup_map hkeys hp hmem hp1
    rw [hpeq] at hfp
    dsimp only at hfp
    by_cases h1 : (remote uri).toFinset = ∅
    · rw [if_pos h1] at hfp; simp at hfp
    · by_cases h2 : iso (remote uri) (localNormalize g)
      · rw [if_neg h1, if_pos h2] at hfp; simp at hfp
      · exact ⟨h1, h2⟩
  · rintro ⟨h1, h2⟩
    refine ⟨(uri, g), hmem, ?_⟩
    dsimp only
    rw [if_neg h1, if_neg h2]

/-- C1 witness: the amended equivalence applied at the counterexample input —
the remote graph is non-empty and not isomorphic to the code-normalized local
graph, so the URI is reported modified. -/
theorem C1_modified_iff_not_isomorphic_witness :
    "http://ex.org/d" ∈ get_modified_datasets [("http://ex.org/d", frLocalGraph)] frRemote :=
  (C1_modified_iff_not_isomorphic [("http://ex.org/d", frLocalGraph)] frRemote
      "http://ex.org/d" frLocalGraph (by decide) (by decide)).mpr
    ⟨by decide, by decide⟩

end Prez
